import Mathlib

/-!
Verification of the Latte training-iteration engine (`src/train_pl.py`)
against its natural-language specification.

Numeric tensors are embedded with rational entries; machine floats are
idealised as exact rationals (resp. reals where a square root is needed),
which is the standard idealisation for the structural and ordering
properties verified here.  External collaborators (pytorch_lightning's
automatic-optimization loop, diffusers' `get_scheduler`, torch's
`load_state_dict` and `AdamW`) are embedded from their documented
behaviour; functions imported from the repository's own `utils.py`, which
is not among the provided sources, are modelled from the spec and marked
as such in their doc comments.
-/

set_option autoImplicit false

namespace Latte

/-- A numeric tensor: a shape together with flattened rational data. -/
structure Tensor where
  shape : List Nat
  data : List ℚ
deriving DecidableEq, Repr

/-- A tensor is well formed when its data length matches its shape. -/
def Tensor.wfB (t : Tensor) : Bool :=
  decide (t.data.length = t.shape.prod)

/-- An ordered mapping from parameter name to tensor (a torch state dict). -/
abbrev StateDict := List (String × Tensor)

/-- First-match lookup in a state dict, as Python dict indexing. -/
def sdLookup (d : StateDict) (k : String) : Option Tensor :=
  match d with
  | [] => none
  | (k', v) :: rest => if k' = k then some v else sdLookup rest k

/-- Python's `k in d` membership test. -/
def hasKey (d : StateDict) (k : String) : Bool :=
  (sdLookup d k).isSome

/-- The key list of a state dict. -/
def keysOf (d : StateDict) : List String :=
  d.map Prod.fst

/-- Every tensor of the dict is well formed. -/
def StateDict.wfB (d : StateDict) : Bool :=
  d.all fun kv => kv.2.wfB

/-- Python's `dict.update`: existing keys keep their position and take the
new value, keys only present in the update are appended. -/
def dictUpdate (base upd : StateDict) : StateDict :=
  (base.map fun kv =>
    match sdLookup upd kv.1 with
    | some v => (kv.1, v)
    | none => kv)
  ++ upd.filter fun kv => !(hasKey base kv.1)

/-- A checkpoint file as read by `torch.load` in
`_load_pretrained_parameters`: either a full-form record from `train.py`,
in which the marker key "ema" holds the shadow state dict next to the live
"model" state dict, or the reduced legacy form, a bare state dict with no
marker key. -/
inductive Checkpoint where
  | fullForm (modelPart emaPart : StateDict) : Checkpoint
  | legacy (params : StateDict) : Checkpoint
deriving DecidableEq, Repr

/-- The `"ema" in checkpoint` marker test of line 58. -/
def hasEmaMarker : Checkpoint → Bool
  | Checkpoint.fullForm _ _ => true
  | Checkpoint.legacy _ => false

/-- Lines 58-60: when the marker key is present the record is replaced by
its "ema" entry; otherwise the record itself is the parameter source. -/
def resolveCheckpoint : Checkpoint → StateDict
  | Checkpoint.fullForm _ emaPart => emaPart
  | Checkpoint.legacy params => params

/-- The checkpoint keys reported as "Ignoring: k" by the filter loop of
lines 64-69: keys of the resolved checkpoint that the model lacks. -/
def ignoredKeys (resolved modelDict : StateDict) : List String :=
  (resolved.filter fun kv => !(hasKey modelDict kv.1)).map Prod.fst

/-- torch `Module.load_state_dict` with the default `strict=True`
(external): fails when the new dict misses a model key, carries an
unexpected key, or mismatches a shape on a matched key; otherwise the new
dict becomes the module state. -/
def loadStateDictStrict (modelDict newDict : StateDict) : Except String StateDict :=
  if (modelDict.all fun kv => hasKey newDict kv.1)
      && (newDict.all fun kv => hasKey modelDict kv.1)
      && (modelDict.all fun kv =>
            match sdLookup newDict kv.1 with
            | some t => decide (kv.2.shape = t.shape)
            | none => false) then
    Except.ok newDict
  else
    Except.error "Error in loading state_dict"

/-- `LatteTrainingModule._load_pretrained_parameters` (lines 56-75):
resolve the marker, keep the checkpoint entries whose key the model has
and report the rest, log a success percentage (a `ZeroDivisionError` when
the resolved checkpoint is empty), then overwrite the model state dict
with the kept entries and load it strictly.  Returns the new model state
dict together with the reported ignored keys. -/
def loadPretrainedParameters (ckpt : Checkpoint) (modelDict : StateDict) :
    Except String (StateDict × List String) :=
  let resolved := resolveCheckpoint ckpt
  let pretrainedDict := resolved.filter fun kv => hasKey modelDict kv.1
  if resolved.length = 0 then
    Except.error "ZeroDivisionError"
  else
    match loadStateDictStrict modelDict (dictUpdate modelDict pretrainedDict) with
    | Except.ok d => Except.ok (d, ignoredKeys resolved modelDict)
    | Except.error e => Except.error e

/-! ### EMA shadow maintainer -/

/-- One EMA combination of a shadow tensor with a live tensor:
`shadow * decay + live * (1 - decay)` element-wise, in place on the shadow
tensor (so the shadow's shape field is kept). -/
def tensorLerp (s l : Tensor) (decay : ℚ) : Tensor :=
  { shape := s.shape,
    data := List.zipWith (fun a b => a * decay + b * (1 - decay)) s.data l.data }

/-- Modelled from the spec: `update_ema` is imported from the repository's
`utils` module, which is not among the provided sources.  Per spec §4.3,
for every parameter key `shadow[k] ← shadow[k] * decay + live[k] * (1 - decay)`,
a numeric-only operation without gradient tracking. -/
def update_ema (emaParams modelParams : StateDict) (decay : ℚ) : StateDict :=
  emaParams.map fun kv =>
    (kv.1,
      match sdLookup modelParams kv.1 with
      | some t => tensorLerp kv.2 t decay
      | none => kv.2)

/-! ### Configuration and module construction -/

/-- The configuration fields of `args` that the embedded code reads. -/
structure Args where
  pretrained : Option String
  resume_from_checkpoint : Option String
  pretrained_model_path : String
  start_clip_iter : Nat
  clip_max_norm : ℚ
  lr_warmup_steps : Nat
  max_train_steps : Nat
  gradient_accumulation_steps : Nat
  log_every : Nat
  extras : Nat
deriving DecidableEq, Repr

/-- Python truthiness of an optional string config entry: `None` and the
empty string are falsy. -/
def pyTruthy : Option String → Bool
  | none => false
  | some s => if s = "" then false else true

/-- The guard of line 39:
`if args.pretrained and args.resume_from_checkpoint is not None`. -/
def shouldLoadPretrained (pretrained resume : Option String) : Bool :=
  pyTruthy pretrained && resume.isSome

/-- The observable outcome of `LatteTrainingModule.__init__`: the live and
shadow parameter sets, plus the decay arguments of the `update_ema` calls
the constructor performed. -/
structure InitResult where
  model : StateDict
  ema : StateDict
  emaDecayCalls : List ℚ
deriving DecidableEq, Repr

/-- `LatteTrainingModule.__init__` (lines 30-54), restricted to parameter
state: the model starts from its freshly initialised parameters, the EMA
copy is a deep copy of the model; when `args.pretrained` is truthy and
`args.resume_from_checkpoint` is not `None` the pretrained checkpoint is
loaded into the model; finally the constructor makes its single
`update_ema` call with `decay = 0` (line 52).  `ckpt` is the content
`torch.load` would read at `args.pretrained`. -/
def initModule (args : Args) (initParams : StateDict) (ckpt : Checkpoint) :
    Except String InitResult :=
  let model0 := initParams
  let ema0 := model0
  if shouldLoadPretrained args.pretrained args.resume_from_checkpoint then
    match loadPretrainedParameters ckpt model0 with
    | Except.error e => Except.error e
    | Except.ok (model1, _) =>
        Except.ok
          { model := model1
            ema := update_ema ema0 model1 0
            emaDecayCalls := [0] }
  else
    Except.ok
      { model := model0
        ema := update_ema ema0 model0 0
        emaDecayCalls := [0] }

/-! ### Frame compressor stage of training_step -/

/-- The fixed scale factor applied after VAE encoding (line 86). -/
def scaleFactor : ℚ := 18215 / 100000

/-- Result of the encoding block: whether it ran under `torch.no_grad()`
and the produced latents. -/
structure EncodeOutput where
  gradTrackingDisabled : Bool
  latents : List ℚ
deriving Repr

/-- The encoding block of `training_step` (lines 83-87): inside
`torch.no_grad()` the external VAE encodes the (rearranged) frames and the
result is multiplied in place by `0.18215`. -/
def encodeStage (vaeEncode : List ℚ → List ℚ) (x : List ℚ) : EncodeOutput :=
  { gradTrackingDisabled := true
    latents := (vaeEncode x).map fun v => v * scaleFactor }

/-- Lines 83-93 as a data flow: the diffusion training loss is computed on
the scaled latents produced by the encoding block. -/
def trainingStepLoss (vaeEncode : List ℚ → List ℚ) (diffusionLoss : List ℚ → ℚ)
    (x : List ℚ) : ℚ :=
  diffusionLoss (encodeStage vaeEncode x).latents

/-! ### Optimizer and learning-rate schedule -/

/-- The observable configuration of a torch optimizer. -/
structure OptimizerConfig where
  rule : String
  decoupledWeightDecay : Bool
  lr : ℚ
  weightDecay : ℚ
deriving DecidableEq, Repr

/-- `torch.optim.AdamW` (external): Adam with decoupled weight decay. -/
def adamW (lr weightDecay : ℚ) : OptimizerConfig :=
  { rule := "AdamW", decoupledWeightDecay := true, lr := lr, weightDecay := weightDecay }

/-- Line 46: `torch.optim.AdamW(self.model.parameters(), lr=1e-4, weight_decay=0)`. -/
def configuredOptimizer (_args : Args) : OptimizerConfig :=
  adamW (1 / 10000) 0

/-- `diffusers.optimization.get_scheduler` (external), as the
multiplicative learning-rate factor at a given step: for name "constant"
it returns `get_constant_schedule`, whose factor is `1.0` at every step
and which does not consume `num_warmup_steps`; for "constant_with_warmup"
the factor ramps linearly from 0 over the warm-up steps and is `1.0`
afterwards.  The remaining schedule names are not used by this module. -/
def getSchedulerFactor (name : String) (numWarmupSteps : Nat) (step : Nat) : ℚ :=
  if name = "constant" then 1
  else if name = "constant_with_warmup" then
    (if step < numWarmupSteps then (step : ℚ) / (numWarmupSteps : ℚ) else 1)
  else 1

/-- `configure_optimizers` (lines 112-119) composed with the optimizer's
base rate: the effective learning rate at a step is the AdamW `lr=1e-4`
times the factor of the scheduler built with name "constant" and
`num_warmup_steps = lr_warmup_steps * gradient_accumulation_steps`. -/
def configuredLearningRate (args : Args) (step : Nat) : ℚ :=
  (configuredOptimizer args).lr *
    getSchedulerFactor "constant" (args.lr_warmup_steps * args.gradient_accumulation_steps) step

/-! ### The per-batch stage trace -/

/-- The pipeline stages of one training step, in the spec's §4.5 vocabulary. -/
inductive Stage where
  | Encoding
  | LossComputation
  | Clipping
  | Backward
  | OptimizerStep
  | EmaUpdate
  | Logged
deriving DecidableEq, Repr

/-- The stages executed inside `training_step` (lines 79-107), in source
order: the no-grad VAE encoding, the diffusion loss computation, the
`clip_grad_norm_` call, and the metric logging; the method then returns
the loss to the framework. -/
def trainingStepStages : List Stage :=
  [Stage.Encoding, Stage.LossComputation, Stage.Clipping, Stage.Logged]

/-- The `on_train_batch_end` hook body (lines 109-110): one `update_ema`
call. -/
def onTrainBatchEndStages : List Stage :=
  [Stage.EmaUpdate]

/-- One training batch under pytorch_lightning automatic optimization
(external framework): the trainer invokes `training_step` to obtain the
loss, then runs the backward pass on that loss, then the optimizer step,
then the `on_train_batch_end` hook. -/
def batchStages : List Stage :=
  trainingStepStages ++ [Stage.Backward, Stage.OptimizerStep] ++ onTrainBatchEndStages

/-- The stage trace of a run of `n` batches. -/
def runStages (n : Nat) : List Stage :=
  (List.replicate n batchStages).flatten

/-- The `Trainer(...)` construction in `main` (lines 187-195): no
`accumulate_grad_batches` argument is passed, so the pytorch_lightning
default of 1 applies and every batch completes exactly one optimizer
step. -/
structure TrainerConfig where
  accelerator : String
  strategy : String
  max_steps : Nat
  log_every_n_steps : Nat
  accumulate_grad_batches : Nat
deriving DecidableEq, Repr

/-- The trainer as configured by `main`. -/
def mainTrainer (args : Args) : TrainerConfig :=
  { accelerator := "gpu"
    strategy := "auto"
    max_steps := args.max_train_steps
    log_every_n_steps := args.log_every
    accumulate_grad_batches := 1 }

/-! ### Gradient norm governor -/

/-- The L2 norm of the concatenation of all gradients. -/
noncomputable def l2Norm (grads : List ℝ) : ℝ :=
  Real.sqrt ((grads.map fun g => g ^ 2).sum)

open Classical in
/-- Modelled from the spec: `clip_grad_norm_` is imported from the
repository's `utils` module, which is not among the provided sources.
Per spec §4.2, it always computes the L2 norm of all gradients; when
`clipGrad` is true and the observed norm exceeds `maxNorm`, every gradient
is rescaled by `maxNorm / observed_norm`; otherwise the gradients are left
untouched.  Returns the observed norm together with the (possibly
rescaled) gradients. -/
noncomputable def clip_grad_norm (grads : List ℝ) (maxNorm : ℝ) (clipGrad : Bool) :
    ℝ × List ℝ :=
  if clipGrad = true ∧ maxNorm < l2Norm grads then
    (l2Norm grads, grads.map fun g => g * (maxNorm / l2Norm grads))
  else
    (l2Norm grads, grads)

/-- The clipping call site of `training_step` (lines 95-98): `clip_grad`
is `False` while `global_step < start_clip_iter` and `True` from that
threshold on; `max_norm` is `args.clip_max_norm` in both branches. -/
noncomputable def trainingStepGradientClip (globalStep : Nat) (args : Args)
    (grads : List ℝ) : ℝ × List ℝ :=
  if globalStep < args.start_clip_iter then
    clip_grad_norm grads (args.clip_max_norm : ℝ) false
  else
    clip_grad_norm grads (args.clip_max_norm : ℝ) true

/-- A configuration with a non-trivial warm-up budget, used to evaluate
the learning-rate schedule. -/
def c3Args : Args :=
  { pretrained := none
    resume_from_checkpoint := none
    pretrained_model_path := ""
    start_clip_iter := 100
    clip_max_norm := 1 / 10
    lr_warmup_steps := 1000
    max_train_steps := 10000
    gradient_accumulation_steps := 1
    log_every := 100
    extras := 1 }

/-- A first concrete configuration for the optimizer claims. -/
def c9ArgsA : Args :=
  { pretrained := none
    resume_from_checkpoint := none
    pretrained_model_path := "a"
    start_clip_iter := 1
    clip_max_norm := 1
    lr_warmup_steps := 1
    max_train_steps := 1
    gradient_accumulation_steps := 1
    log_every := 1
    extras := 1 }

/-- A second concrete configuration, differing from the first in every
field. -/
def c9ArgsB : Args :=
  { pretrained := some "p"
    resume_from_checkpoint := some "r"
    pretrained_model_path := "b"
    start_clip_iter := 2
    clip_max_norm := 9
    lr_warmup_steps := 700
    max_train_steps := 5000
    gradient_accumulation_steps := 4
    log_every := 50
    extras := 2 }

/-- A configuration with a pretrained path but no resume checkpoint. -/
def c10Args : Args :=
  { pretrained := some "old.pt"
    resume_from_checkpoint := none
    pretrained_model_path := "sd"
    start_clip_iter := 100
    clip_max_norm := 1
    lr_warmup_steps := 0
    max_train_steps := 100
    gradient_accumulation_steps := 1
    log_every := 10
    extras := 1 }

/-- A one-parameter fresh model for the C10 witness. -/
def c10Params : StateDict := [("a", { shape := [1], data := [1] })]

/-- A pretrained checkpoint that would change the parameter, for the C10
witness. -/
def c10Ckpt : Checkpoint := Checkpoint.legacy [("a", { shape := [1], data := [9] })]

/-- A configuration matching the spec's clipping scenario:
`start_clip_iter = 100`, `clip_max_norm = 1`. -/
def c4Args : Args :=
  { pretrained := none
    resume_from_checkpoint := none
    pretrained_model_path := ""
    start_clip_iter := 100
    clip_max_norm := 1
    lr_warmup_steps := 0
    max_train_steps := 1000
    gradient_accumulation_steps := 1
    log_every := 100
    extras := 1 }

/-- Every matched key of the checkpoint has the model's shape (the
condition under which torch's copy into a matched parameter succeeds). -/
def matchedShapesOk (resolved m : StateDict) : Bool :=
  resolved.all fun kv =>
    match sdLookup m kv.1 with
    | some t => decide (kv.2.shape = t.shape)
    | none => true

/-- A two-parameter model for the C7 counterexample. -/
def c7Model : StateDict :=
  [("a", { shape := [1], data := [1] }), ("b", { shape := [1], data := [2] })]

/-- A legacy checkpoint containing only key "a", so model key "b" stays
unfilled. -/
def c7Ckpt : Checkpoint := Checkpoint.legacy [("a", { shape := [1], data := [7] })]

/-- A one-parameter model for the C7 witness. -/
def c7wModel : StateDict := [("a", { shape := [2], data := [1, 2] })]

/-- A checkpoint with one matching key and one extra key "c" that the
model lacks. -/
def c7wCkpt : Checkpoint :=
  Checkpoint.legacy
    [("a", { shape := [2], data := [5, 6] }), ("c", { shape := [3], data := [0, 0, 0] })]

/-- A configuration that triggers the pretrained load at construction. -/
def c5Args : Args :=
  { pretrained := some "pre.pt"
    resume_from_checkpoint := some "resume.ckpt"
    pretrained_model_path := "sd"
    start_clip_iter := 100
    clip_max_norm := 1
    lr_warmup_steps := 0
    max_train_steps := 100
    gradient_accumulation_steps := 1
    log_every := 10
    extras := 1 }

/-- Fresh two-parameter model weights for the C5 witness. -/
def c5Params : StateDict :=
  [("a", { shape := [2], data := [1, 2] }), ("b", { shape := [1], data := [3] })]

/-- A legacy pretrained checkpoint overwriting parameter "a". -/
def c5Ckpt : Checkpoint := Checkpoint.legacy [("a", { shape := [2], data := [5, 6] })]

/-- The live parameters after the pretrained load of the C5 witness. -/
def c5Model1 : StateDict :=
  [("a", { shape := [2], data := [5, 6] }), ("b", { shape := [1], data := [3] })]

/-- The construction outcome of the C5 witness. -/
def c5Result : InitResult :=
  { model := c5Model1
    ema := update_ema c5Params c5Model1 0
    emaDecayCalls := [0] }

/-! ### Basic lookup lemmas -/

theorem sdLookup_mem {d : StateDict} {k : String} {v : Tensor}
    (h : sdLookup d k = some v) : (k, v) ∈ d := by
  induction d with
  | nil => simp [sdLookup] at h
  | cons kv rest ih =>
    obtain ⟨k', v'⟩ := kv
    by_cases hk : k' = k
    · subst hk
      simp [sdLookup] at h
      subst h
      exact List.mem_cons_self _ _
    · simp [sdLookup, hk] at h
      exact List.mem_cons_of_mem _ (ih h)

theorem sdLookup_isSome_of_mem {d : StateDict} {k : String} {v : Tensor}
    (h : (k, v) ∈ d) : (sdLookup d k).isSome := by
  induction d with
  | nil => simp at h
  | cons kv rest ih =>
    rcases List.mem_cons.mp h with h1 | h1
    · subst h1
      simp [sdLookup]
    · obtain ⟨k', v'⟩ := kv
      by_cases hk : k' = k
      · simp [sdLookup, hk]
      · simpa [sdLookup, hk] using ih h1

theorem sdLookup_of_nodup_mem {d : StateDict} {k : String} {v : Tensor}
    (hnd : (keysOf d).Nodup) (h : (k, v) ∈ d) : sdLookup d k = some v := by
  induction d with
  | nil => simp at h
  | cons kv rest ih =>
    obtain ⟨k', v'⟩ := kv
    simp only [keysOf, List.map_cons, List.nodup_cons] at hnd
    rcases List.mem_cons.mp h with h1 | h1
    · obtain ⟨hk, hv⟩ := Prod.mk.injEq .. ▸ h1
      subst hk; subst hv
      simp [sdLookup]
    · by_cases hk : k' = k
      · subst hk
        exact absurd (by simpa [keysOf] using List.mem_map_of_mem Prod.fst h1) hnd.1
      · simpa [sdLookup, hk] using ih hnd.2 h1

theorem sdLookup_map_entry (f : String → Tensor → Tensor) (d : StateDict) (k : String) :
    sdLookup (d.map fun kv => (kv.1, f kv.1 kv.2)) k = (sdLookup d k).map (f k) := by
  induction d with
  | nil => simp [sdLookup]
  | cons kv rest ih =>
    obtain ⟨k', v'⟩ := kv
    by_cases hk : k' = k
    · subst hk
      simp [sdLookup]
    · simpa [sdLookup, hk] using ih

theorem sdLookup_append (a b : StateDict) (k : String) :
    sdLookup (a ++ b) k =
      match sdLookup a k with
      | some v => some v
      | none => sdLookup b k := by
  induction a with
  | nil => simp [sdLookup]
  | cons kv rest ih =>
    obtain ⟨k', v'⟩ := kv
    by_cases hk : k' = k
    · subst hk
      simp [sdLookup]
    · simpa [sdLookup, hk] using ih

theorem sdLookup_filter_key (p : String → Bool) (d : StateDict) (k : String) :
    sdLookup (d.filter fun kv => p kv.1) k =
      if p k then sdLookup d k else none := by
  induction d with
  | nil => simp [sdLookup]
  | cons kv rest ih =>
    obtain ⟨k', v'⟩ := kv
    by_cases hp : p k'
    · by_cases hk : k' = k
      · subst hk
        simp [sdLookup, List.filter_cons, hp]
      · simpa [sdLookup, List.filter_cons, hp, hk] using ih
    · by_cases hk : k' = k
      · subst hk
        simp [sdLookup, List.filter_cons, hp, ih]
      · simp only [List.filter_cons]
        simpa [sdLookup, hp, hk] using ih

theorem stateDict_wfB_lookup {d : StateDict} {k : String} {t : Tensor}
    (hwf : StateDict.wfB d = true) (h : sdLookup d k = some t) :
    t.data.length = t.shape.prod := by
  have hmem := sdLookup_mem h
  have := List.all_eq_true.mp hwf _ hmem
  simpa [Tensor.wfB] using this

/-! ### Lemmas about dict update and the EMA update -/

theorem dictUpdate_of_sub (base upd : StateDict)
    (hsub : ∀ kv ∈ upd, hasKey base kv.1 = true) :
    dictUpdate base upd =
      base.map fun kv =>
        (kv.1,
          match sdLookup upd kv.1 with
          | some v => v
          | none => kv.2) := by
  unfold dictUpdate
  have hnil : upd.filter (fun kv => !(hasKey base kv.1)) = [] := by
    rw [List.filter_eq_nil_iff]
    intro kv hkv
    simp [hsub kv hkv]
  rw [hnil, List.append_nil]
  apply List.map_congr_left
  intro kv _
  cases h : sdLookup upd kv.1 <;> simp

theorem keysOf_dictUpdate_of_sub (base upd : StateDict)
    (hsub : ∀ kv ∈ upd, hasKey base kv.1 = true) :
    keysOf (dictUpdate base upd) = keysOf base := by
  rw [dictUpdate_of_sub base upd hsub]
  simp [keysOf, List.map_map, Function.comp]

theorem sdLookup_dictUpdate_of_sub (base upd : StateDict)
    (hsub : ∀ kv ∈ upd, hasKey base kv.1 = true) (k : String) :
    sdLookup (dictUpdate base upd) k =
      match sdLookup base k with
      | some v =>
          some (match sdLookup upd k with
                | some u => u
                | none => v)
      | none => none := by
  rw [dictUpdate_of_sub base upd hsub]
  rw [sdLookup_map_entry
    (fun k v => match sdLookup upd k with | some u => u | none => v) base k]
  cases sdLookup base k <;> rfl

theorem zipWith_lerp_zero (l1 l2 : List ℚ) (h : l1.length = l2.length) :
    List.zipWith (fun a b => a * (0 : ℚ) + b * (1 - 0)) l1 l2 = l2 := by
  induction l1 generalizing l2 with
  | nil =>
    cases l2 with
    | nil => simp
    | cons b t2 => simp at h
  | cons a t ih =>
    cases l2 with
    | nil => simp at h
    | cons b t2 =>
      simp only [List.zipWith]
      have hb : a * (0 : ℚ) + b * (1 - 0) = b := by ring
      rw [hb, ih t2 (by simpa using h)]

theorem tensorLerp_zero {s l : Tensor} (hsh : s.shape = l.shape)
    (hlen : s.data.length = l.data.length) :
    tensorLerp s l 0 = l := by
  cases s with
  | mk ssh sdata =>
    cases l with
    | mk lsh ldata =>
      simp only [tensorLerp]
      simp only at hsh hlen
      rw [hsh, zipWith_lerp_zero sdata ldata hlen]

theorem sdLookup_update_ema (e m : StateDict) (dec : ℚ) (k : String) :
    sdLookup (update_ema e m dec) k =
      (sdLookup e k).map fun v =>
        match sdLookup m k with
        | some t => tensorLerp v t dec
        | none => v := by
  unfold update_ema
  rw [sdLookup_map_entry
    (fun k v => match sdLookup m k with | some t => tensorLerp v t dec | none => v) e k]

theorem keysOf_update_ema (e m : StateDict) (dec : ℚ) :
    keysOf (update_ema e m dec) = keysOf e := by
  simp [update_ema, keysOf, List.map_map, Function.comp]

/-! ### Lemmas about the strict load -/

theorem loadStateDictStrict_ok_elim {m n d : StateDict}
    (h : loadStateDictStrict m n = Except.ok d) :
    d = n ∧
    (m.all fun kv => hasKey n kv.1) = true ∧
    (n.all fun kv => hasKey m kv.1) = true ∧
    (m.all fun kv =>
       match sdLookup n kv.1 with
       | some t => decide (kv.2.shape = t.shape)
       | none => false) = true := by
  unfold loadStateDictStrict at h
  split at h
  · rename_i hc
    rw [Bool.and_eq_true, Bool.and_eq_true] at hc
    cases h
    exact ⟨rfl, hc.1.1, hc.1.2, hc.2⟩
  · cases h

theorem loadStateDictStrict_ok_intro {m n : StateDict}
    (h1 : (m.all fun kv => hasKey n kv.1) = true)
    (h2 : (n.all fun kv => hasKey m kv.1) = true)
    (h3 : (m.all fun kv =>
       match sdLookup n kv.1 with
       | some t => decide (kv.2.shape = t.shape)
       | none => false) = true) :
    loadStateDictStrict m n = Except.ok n := by
  unfold loadStateDictStrict
  rw [h1, h2, h3]
  rfl

theorem loadPretrained_ok_elim {ckpt : Checkpoint} {m d : StateDict} {ign : List String}
    (h : loadPretrainedParameters ckpt m = Except.ok (d, ign)) :
    d = dictUpdate m ((resolveCheckpoint ckpt).filter fun kv => hasKey m kv.1) ∧
    ign = ignoredKeys (resolveCheckpoint ckpt) m ∧
    (m.all fun kv =>
       match sdLookup d kv.1 with
       | some t => decide (kv.2.shape = t.shape)
       | none => false) = true := by
  simp only [loadPretrainedParameters] at h
  split at h
  · cases h
  · rename_i hne
    cases hld : loadStateDictStrict m
        (dictUpdate m ((resolveCheckpoint ckpt).filter fun kv => hasKey m kv.1)) with
    | error e => rw [hld] at h; cases h
    | ok d' =>
      rw [hld] at h
      obtain ⟨hd, hign⟩ : d' = d ∧ ignoredKeys (resolveCheckpoint ckpt) m = ign := by
        cases h; exact ⟨rfl, rfl⟩
      obtain ⟨hdn, _, _, hsh⟩ := loadStateDictStrict_ok_elim hld
      subst hd
      exact ⟨hdn, hign.symm, hdn ▸ hsh⟩

/-! ### Counting stages over a run -/

theorem count_runStages (s : Stage) (n : Nat) :
    (runStages n).count s = n * batchStages.count s := by
  induction n with
  | zero => simp [runStages]
  | succ k ih =>
    have : runStages (k + 1) = batchStages ++ runStages k := by
      simp [runStages, List.replicate_succ]
    rw [this, List.count_append, ih]
    ring

/-! ## Claim theorems -/

/-- C1: the claim states that the gradient-norm governor is invoked after
the backward pass has produced this step's gradients and before the
optimizer step, per the order Backward → Clipping → OptimizerStep.  The
code instead calls `clip_grad_norm_` inside `training_step`, which
pytorch_lightning automatic optimization executes before the backward pass
on the returned loss: in the embedded per-batch trace, Clipping strictly
precedes Backward, refuting the claimed order. -/
theorem C1_clipping_runs_before_backward :
    batchStages.indexOf Stage.Clipping < batchStages.indexOf Stage.Backward ∧
    ¬ batchStages.indexOf Stage.Backward < batchStages.indexOf Stage.Clipping := by
  decide

/-- C2: `load` distinguishes the reduced legacy checkpoint form by the
absence of the "ema" marker key and treats its contained parameters as the
shadow (EMA) set: loading a legacy record with parameters `P` behaves
exactly like loading a full-form record whose shadow ("ema") component is
`P`, independently of the full record's live component; when the marker is
present the full-form record is recognised and its shadow component is
selected. -/
theorem C2_legacy_checkpoint_treated_as_shadow (L S P m : StateDict) :
    hasEmaMarker (Checkpoint.fullForm L S) = true ∧
    hasEmaMarker (Checkpoint.legacy P) = false ∧
    resolveCheckpoint (Checkpoint.fullForm L S) = S ∧
    resolveCheckpoint (Checkpoint.legacy P) = P ∧
    loadPretrainedParameters (Checkpoint.legacy P) m
      = loadPretrainedParameters (Checkpoint.fullForm L P) m :=
  ⟨rfl, rfl, rfl, rfl, rfl⟩

/-- C3: the claim states the learning rate is 0 at step 0 and ramps
linearly to the target over `lr_warmup_steps`.  The code builds the
diffusers scheduler with name "constant", which ignores the warm-up
argument: the effective learning rate is the full 1e-4 already at step 0
and at every later step, so no ramp exists.  (The "constant_with_warmup"
factor, shown last, is what a warm-up schedule would have produced at
step 0.) -/
theorem C3_lr_has_no_warmup_ramp :
    configuredLearningRate c3Args 0 = 1 / 10000 ∧
    (∀ step : Nat, configuredLearningRate c3Args step = 1 / 10000) ∧
    (1 / 10000 : ℚ) ≠ 0 ∧
    getSchedulerFactor "constant_with_warmup" 1000 0 = 0 := by
  refine ⟨?_, ?_, by norm_num, ?_⟩
  · simp [configuredLearningRate, getSchedulerFactor, configuredOptimizer, adamW]
  · intro step
    simp [configuredLearningRate, getSchedulerFactor, configuredOptimizer, adamW]
  · unfold getSchedulerFactor
    rw [if_neg (by decide), if_pos rfl, if_pos (by norm_num)]
    norm_num

/-- C6: after construction, the EMA shadow update runs exactly once per
completed optimizer step and only after it: the trainer is built without
`accumulate_grad_batches` (so the default of 1 applies and every batch
completes exactly one optimizer step), each per-batch trace contains
exactly one EmaUpdate, positioned after OptimizerStep, and over any run of
`n` batches the numbers of EMA updates and optimizer steps are both `n`. -/
theorem C6_ema_once_after_each_optimizer_step (args : Args) (n : Nat) :
    (mainTrainer args).accumulate_grad_batches = 1 ∧
    batchStages.count Stage.EmaUpdate = 1 ∧
    batchStages.indexOf Stage.OptimizerStep < batchStages.indexOf Stage.EmaUpdate ∧
    (runStages n).count Stage.EmaUpdate = n ∧
    (runStages n).count Stage.OptimizerStep = n := by
  refine ⟨rfl, by decide, by decide, ?_, ?_⟩
  · have h : batchStages.count Stage.EmaUpdate = 1 := by decide
    rw [count_runStages, h, Nat.mul_one]
  · have h : batchStages.count Stage.OptimizerStep = 1 := by decide
    rw [count_runStages, h, Nat.mul_one]

/-- C8: in every training step the frame compressor runs with gradient
tracking disabled, and its output is multiplied by the fixed scale factor
0.18215 before entering the diffusion process: for every external encoder,
diffusion loss and input batch, the encoding block reports gradient
tracking disabled, its latents are the encoder output scaled by
18215/100000, and the diffusion loss is computed on exactly those scaled
latents. -/
theorem C8_encode_nograd_and_scaled (vaeEncode : List ℚ → List ℚ)
    (diffusionLoss : List ℚ → ℚ) (x : List ℚ) :
    (encodeStage vaeEncode x).gradTrackingDisabled = true ∧
    (encodeStage vaeEncode x).latents
      = (vaeEncode x).map (fun v => v * (18215 / 100000 : ℚ)) ∧
    trainingStepLoss vaeEncode diffusionLoss x
      = diffusionLoss ((vaeEncode x).map fun v => v * (18215 / 100000 : ℚ)) :=
  ⟨rfl, rfl, rfl⟩

/-- C9 counterexample: the claim states the weight-decay coefficient is
configurable.  It is not: two configurations that differ in every field
yield the same optimizer, whose weight decay is the hardcoded literal 0
of line 46. -/
theorem C9_weight_decay_not_configurable :
    c9ArgsA ≠ c9ArgsB ∧
    configuredOptimizer c9ArgsA = configuredOptimizer c9ArgsB ∧
    (configuredOptimizer c9ArgsA).weightDecay = 0 :=
  ⟨by decide, rfl, rfl⟩

/-- C9 (amended): the optimizer applies a decoupled-weight-decay
gradient-descent update rule (torch AdamW) whose weight-decay coefficient
is fixed at zero for every configuration, not configurable. -/
theorem C9_decoupled_weight_decay_fixed_zero (args : Args) :
    (configuredOptimizer args).rule = "AdamW" ∧
    (configuredOptimizer args).decoupledWeightDecay = true ∧
    (configuredOptimizer args).lr = 1 / 10000 ∧
    (configuredOptimizer args).weightDecay = 0 :=
  ⟨rfl, rfl, rfl, rfl⟩

/-- C10: pretrained parameters are loaded at construction only when both
the pretrained path is truthy and `resume_from_checkpoint` is not `None`;
when `resume_from_checkpoint` is absent the constructor performs no load
and the model keeps its freshly initialised parameters (the EMA copy being
the single decay-0 update of those same parameters). -/
theorem C10_pretrained_load_requires_resume (args : Args) (initParams : StateDict)
    (ckpt : Checkpoint) :
    (shouldLoadPretrained args.pretrained args.resume_from_checkpoint = true ↔
       (pyTruthy args.pretrained = true ∧ args.resume_from_checkpoint.isSome = true)) ∧
    (args.resume_from_checkpoint = none →
       initModule args initParams ckpt =
         Except.ok
           { model := initParams
             ema := update_ema initParams initParams 0
             emaDecayCalls := [0] }) := by
  constructor
  · simp [shouldLoadPretrained, Bool.and_eq_true]
  · intro hres
    have hflag : shouldLoadPretrained args.pretrained args.resume_from_checkpoint = false := by
      simp [shouldLoadPretrained, hres]
    simp [initModule, hflag]

/-- The governor never clips when `clipGrad` is false. -/
theorem clip_grad_norm_no_clip (grads : List ℝ) (maxNorm : ℝ) :
    clip_grad_norm grads maxNorm false = (l2Norm grads, grads) := by
  unfold clip_grad_norm
  rw [if_neg]
  rintro ⟨hb, _⟩
  exact Bool.false_ne_true hb

/-- With `clipGrad` true and the norm above the bound, every gradient is
rescaled by `maxNorm / norm`. -/
theorem clip_grad_norm_clip_big {grads : List ℝ} {maxNorm : ℝ}
    (h : maxNorm < l2Norm grads) :
    clip_grad_norm grads maxNorm true
      = (l2Norm grads, grads.map fun g => g * (maxNorm / l2Norm grads)) := by
  unfold clip_grad_norm
  rw [if_pos ⟨rfl, h⟩]

/-- With `clipGrad` true but the norm within the bound, gradients are
untouched. -/
theorem clip_grad_norm_clip_small {grads : List ℝ} {maxNorm : ℝ}
    (h : l2Norm grads ≤ maxNorm) :
    clip_grad_norm grads maxNorm true = (l2Norm grads, grads) := by
  unfold clip_grad_norm
  rw [if_neg]
  rintro ⟨_, hlt⟩
  exact absurd hlt (not_lt.mpr h)

/-- C4: gradient clipping is enforced exactly when
`global_step ≥ start_clip_iter`: the call site equals the governor invoked
with enforce flag `start_clip_iter ≤ global_step`; the observed norm is
always computed; below the threshold the gradients are left untouched; at
or above the threshold each gradient is rescaled by
`max_norm / observed_norm` when the observed norm exceeds `max_norm`, and
left untouched otherwise. -/
theorem C4_clip_enforcement (gs : Nat) (args : Args) (grads : List ℝ) :
    trainingStepGradientClip gs args grads
      = clip_grad_norm grads (args.clip_max_norm : ℝ) (decide (args.start_clip_iter ≤ gs)) ∧
    (trainingStepGradientClip gs args grads).1 = l2Norm grads ∧
    (gs < args.start_clip_iter → (trainingStepGradientClip gs args grads).2 = grads) ∧
    (args.start_clip_iter ≤ gs → (args.clip_max_norm : ℝ) < l2Norm grads →
      (trainingStepGradientClip gs args grads).2
        = grads.map fun g => g * ((args.clip_max_norm : ℝ) / l2Norm grads)) ∧
    (args.start_clip_iter ≤ gs → l2Norm grads ≤ (args.clip_max_norm : ℝ) →
      (trainingStepGradientClip gs args grads).2 = grads) := by
  by_cases h : gs < args.start_clip_iter
  · have hflag : decide (args.start_clip_iter ≤ gs) = false :=
      decide_eq_false (not_le.mpr h)
    have hcall : trainingStepGradientClip gs args grads
        = clip_grad_norm grads (args.clip_max_norm : ℝ) false := by
      unfold trainingStepGradientClip
      rw [if_pos h]
    refine ⟨by rw [hcall, hflag], ?_, ?_, ?_, ?_⟩
    · rw [hcall, clip_grad_norm_no_clip]
    · intro _
      rw [hcall, clip_grad_norm_no_clip]
    · intro hle
      exact absurd hle (not_le.mpr h)
    · intro hle
      exact absurd hle (not_le.mpr h)
  · have hle : args.start_clip_iter ≤ gs := not_lt.mp h
    have hflag : decide (args.start_clip_iter ≤ gs) = true := decide_eq_true hle
    have hcall : trainingStepGradientClip gs args grads
        = clip_grad_norm grads (args.clip_max_norm : ℝ) true := by
      unfold trainingStepGradientClip
      rw [if_neg h]
    refine ⟨by rw [hcall, hflag], ?_, ?_, ?_, ?_⟩
    · by_cases hn : (args.clip_max_norm : ℝ) < l2Norm grads
      · rw [hcall, clip_grad_norm_clip_big hn]
      · rw [hcall, clip_grad_norm_clip_small (not_lt.mp hn)]
    · intro hlt
      exact absurd hlt h
    · intro _ hn
      rw [hcall, clip_grad_norm_clip_big hn]
    · intro _ hn
      rw [hcall, clip_grad_norm_clip_small hn]

/-- The L2 norm of the gradient list `[3, 4]` is 5. -/
theorem l2Norm_three_four : l2Norm [(3 : ℝ), 4] = 5 := by
  unfold l2Norm
  simp only [List.map_cons, List.map_nil, List.sum_cons, List.sum_nil]
  rw [show (3 : ℝ) ^ 2 + ((4 : ℝ) ^ 2 + 0) = 5 ^ 2 by norm_num]
  exact Real.sqrt_sq (by norm_num)

/-- C4 witness: at `global_step = 50 < 100` the gradients `[3, 4]` pass
through untouched; at `global_step = 150 ≥ 100` with `max_norm = 1` and
observed norm 5, each gradient is rescaled by 1/5 and the norm 5 is still
reported. -/
theorem C4_clip_enforcement_witness :
    (trainingStepGradientClip 50 c4Args [3, 4]).2 = [(3 : ℝ), 4] ∧
    (trainingStepGradientClip 150 c4Args [3, 4]).1 = 5 ∧
    (trainingStepGradientClip 150 c4Args [3, 4]).2
      = [(3 : ℝ) * (1 / 5), 4 * (1 / 5)] := by
  have hcast : ((c4Args.clip_max_norm : ℚ) : ℝ) = 1 := by
    norm_num [c4Args]
  obtain ⟨_, _, hlow, _, _⟩ := C4_clip_enforcement 50 c4Args [3, 4]
  obtain ⟨_, hfst, _, hbig, _⟩ := C4_clip_enforcement 150 c4Args [3, 4]
  refine ⟨hlow (by norm_num [c4Args]), ?_, ?_⟩
  · rw [hfst, l2Norm_three_four]
  · rw [hbig (by norm_num [c4Args]) (by rw [hcast, l2Norm_three_four]; norm_num)]
    rw [hcast, l2Norm_three_four]
    simp

/-- C10 witness: with a pretrained path configured but no resume
checkpoint, construction performs no load and keeps the fresh
parameters. -/
theorem C10_pretrained_load_requires_resume_witness :
    initModule c10Args c10Params c10Ckpt =
      Except.ok
        { model := c10Params
          ema := update_ema c10Params c10Params 0
          emaDecayCalls := [0] } ∧
    shouldLoadPretrained c10Args.pretrained c10Args.resume_from_checkpoint = false :=
  ⟨(C10_pretrained_load_requires_resume c10Args c10Params c10Ckpt).2 rfl, by decide⟩

/-- C7 (amended): when the matched keys agree in shape and the checkpoint
is non-empty, `load` succeeds (never fails merely because of a key-set
mismatch), applies exactly the matching keys, reports every ignored
checkpoint key, and leaves every non-matching destination parameter at its
pre-load value.  (Unfilled model keys are not individually reported; see
the counterexample.) -/
theorem C7_subset_load (ckpt : Checkpoint) (m : StateDict)
    (hne : (resolveCheckpoint ckpt).length ≠ 0)
    (hnd : (keysOf m).Nodup)
    (hsh : matchedShapesOk (resolveCheckpoint ckpt) m = true) :
    loadPretrainedParameters ckpt m
      = Except.ok
          (dictUpdate m ((resolveCheckpoint ckpt).filter fun kv => hasKey m kv.1),
           ignoredKeys (resolveCheckpoint ckpt) m) ∧
    keysOf (dictUpdate m ((resolveCheckpoint ckpt).filter fun kv => hasKey m kv.1))
      = keysOf m ∧
    (∀ k, sdLookup (resolveCheckpoint ckpt) k = none →
       sdLookup (dictUpdate m ((resolveCheckpoint ckpt).filter fun kv => hasKey m kv.1)) k
         = sdLookup m k) ∧
    (∀ k t, (sdLookup m k).isSome = true → sdLookup (resolveCheckpoint ckpt) k = some t →
       sdLookup (dictUpdate m ((resolveCheckpoint ckpt).filter fun kv => hasKey m kv.1)) k
         = some t) := by
  have hsubP : ∀ kv ∈ (resolveCheckpoint ckpt).filter fun kv => hasKey m kv.1,
      hasKey m kv.1 = true := by
    intro kv hkv
    exact (List.mem_filter.mp hkv).2
  have lookupP : ∀ k,
      sdLookup ((resolveCheckpoint ckpt).filter fun kv => hasKey m kv.1) k
        = if hasKey m k then sdLookup (resolveCheckpoint ckpt) k else none :=
    fun k => sdLookup_filter_key (fun k => hasKey m k) (resolveCheckpoint ckpt) k
  have lookupD : ∀ k,
      sdLookup (dictUpdate m ((resolveCheckpoint ckpt).filter fun kv => hasKey m kv.1)) k
        = match sdLookup m k with
          | some v =>
              some (match sdLookup ((resolveCheckpoint ckpt).filter fun kv => hasKey m kv.1) k with
                    | some u => u
                    | none => v)
          | none => none :=
    fun k => sdLookup_dictUpdate_of_sub m _ hsubP k
  have cond1 : (m.all fun kv =>
      hasKey (dictUpdate m ((resolveCheckpoint ckpt).filter fun kv => hasKey m kv.1)) kv.1) = true := by
    rw [List.all_eq_true]
    intro kv hkv
    have h1 : (sdLookup m kv.1).isSome :=
      sdLookup_isSome_of_mem (k := kv.1) (v := kv.2) hkv
    obtain ⟨v, hv⟩ := Option.isSome_iff_exists.mp h1
    show (sdLookup (dictUpdate m
      ((resolveCheckpoint ckpt).filter fun kv => hasKey m kv.1)) kv.1).isSome = true
    rw [lookupD kv.1, hv]
    rfl
  have cond2 : ((dictUpdate m ((resolveCheckpoint ckpt).filter fun kv => hasKey m kv.1)).all
      fun kv => hasKey m kv.1) = true := by
    rw [dictUpdate_of_sub m _ hsubP, List.all_eq_true]
    intro x hx
    obtain ⟨kv, hkv, rfl⟩ := List.mem_map.mp hx
    unfold hasKey
    rw [Option.isSome_iff_exists]
    have h1 : (sdLookup m kv.1).isSome :=
      sdLookup_isSome_of_mem (k := kv.1) (v := kv.2) hkv
    obtain ⟨v, hv⟩ := Option.isSome_iff_exists.mp h1
    exact ⟨v, hv⟩
  have cond3 : (m.all fun kv =>
      match sdLookup (dictUpdate m ((resolveCheckpoint ckpt).filter fun kv => hasKey m kv.1)) kv.1 with
      | some t => decide (kv.2.shape = t.shape)
      | none => false) = true := by
    rw [List.all_eq_true]
    intro kv hkv
    have hm : sdLookup m kv.1 = some kv.2 := sdLookup_of_nodup_mem hnd hkv
    rw [lookupD kv.1, hm]
    cases hp : sdLookup ((resolveCheckpoint ckpt).filter fun kv => hasKey m kv.1) kv.1 with
    | none => simp
    | some u =>
      have hres : sdLookup (resolveCheckpoint ckpt) kv.1 = some u := by
        rw [lookupP kv.1] at hp
        have hkm : hasKey m kv.1 = true := by
          unfold hasKey
          rw [hm]
          rfl
        rw [hkm] at hp
        simpa using hp
      have hmem : (kv.1, u) ∈ resolveCheckpoint ckpt := sdLookup_mem hres
      have := List.all_eq_true.mp hsh _ hmem
      rw [hm] at this
      have hshape : u.shape = kv.2.shape := of_decide_eq_true this
      simp [hshape]
  have strictOk := loadStateDictStrict_ok_intro cond1 cond2 cond3
  refine ⟨?_, keysOf_dictUpdate_of_sub m _ hsubP, ?_, ?_⟩
  · simp only [loadPretrainedParameters]
    rw [if_neg hne, strictOk]
  · intro k hk
    rw [lookupD k]
    cases hm : sdLookup m k with
    | none => rfl
    | some v =>
      have hp : sdLookup ((resolveCheckpoint ckpt).filter fun kv => hasKey m kv.1) k = none := by
        rw [lookupP k]
        cases hasKey m k <;> simp [hk]
      rw [hp]
  · intro k t hsome ht
    obtain ⟨v, hv⟩ := Option.isSome_iff_exists.mp hsome
    have hkm : hasKey m k = true := by
      unfold hasKey
      rw [hv]
      rfl
    have hp : sdLookup ((resolveCheckpoint ckpt).filter fun kv => hasKey m kv.1) k = some t := by
      rw [lookupP k, hkm]
      simpa using ht
    rw [lookupD k, hv, hp]

/-- C7 counterexample: the claim states that every unfilled model key is
reported.  Loading a checkpoint holding only "a" into a model with keys
"a" and "b" succeeds with an empty report list, although "b" is an
unfilled model key (present in the model, absent from the checkpoint):
unfilled model keys are never reported, only ignored checkpoint keys
are. -/
theorem C7_unfilled_key_not_reported :
    loadPretrainedParameters c7Ckpt c7Model
      = Except.ok
          ([("a", { shape := [1], data := [7] }), ("b", { shape := [1], data := [2] })],
           ([] : List String)) ∧
    (sdLookup c7Model "b").isSome = true ∧
    sdLookup (resolveCheckpoint c7Ckpt) "b" = none :=
  ⟨rfl, rfl, rfl⟩

/-- C7 witness: loading a checkpoint with matching key "a" and extra key
"c" succeeds, reports exactly the ignored checkpoint key "c", and fills
"a" with the checkpoint tensor. -/
theorem C7_subset_load_witness :
    loadPretrainedParameters c7wCkpt c7wModel
      = Except.ok
          (dictUpdate c7wModel
             ((resolveCheckpoint c7wCkpt).filter fun kv => hasKey c7wModel kv.1),
           ignoredKeys (resolveCheckpoint c7wCkpt) c7wModel) ∧
    ignoredKeys (resolveCheckpoint c7wCkpt) c7wModel = ["c"] ∧
    sdLookup
        (dictUpdate c7wModel
          ((resolveCheckpoint c7wCkpt).filter fun kv => hasKey c7wModel kv.1)) "a"
      = some { shape := [2], data := [5, 6] } := by
  obtain ⟨hok, hkeys, hunm, hmat⟩ :=
    C7_subset_load c7wCkpt c7wModel (by decide) (by decide) (by decide)
  exact ⟨hok, rfl, hmat "a" { shape := [2], data := [5, 6] } rfl rfl⟩

/-- The decay-0 EMA update leaves the shadow equal to the live dict at a
key, provided both dicts agree on the key's presence and the two tensors
at the key (when present) are compatible in shape and data length. -/
theorem update_ema_zero_lookup (e m : StateDict) (k : String)
    (hsome : (sdLookup e k).isSome = (sdLookup m k).isSome)
    (hcompat : ∀ v t, sdLookup e k = some v → sdLookup m k = some t →
      v.shape = t.shape ∧ v.data.length = t.data.length) :
    sdLookup (update_ema e m 0) k = sdLookup m k := by
  rw [sdLookup_update_ema]
  cases he : sdLookup e k with
  | none =>
    cases hm : sdLookup m k with
    | none => rfl
    | some t =>
      rw [he, hm] at hsome
      cases hsome
  | some v =>
    cases hm : sdLookup m k with
    | none =>
      rw [he, hm] at hsome
      cases hsome
    | some t =>
      obtain ⟨hsh, hlen⟩ := hcompat v t he hm
      simp only [Option.map_some']
      exact congrArg some (tensorLerp_zero hsh hlen)

/-- C5: the constructor performs exactly one `update_ema` call with
`decay = 0`, and immediately after construction the shadow parameter set
equals the live parameter set exactly (same keys, same tensor at every
key), whether or not a pretrained checkpoint was loaded. -/
theorem C5_ema_bootstrap (args : Args) (initParams : StateDict) (ckpt : Checkpoint)
    (r : InitResult)
    (hok : initModule args initParams ckpt = Except.ok r)
    (hwf1 : StateDict.wfB initParams = true)
    (hwf2 : StateDict.wfB (resolveCheckpoint ckpt) = true) :
    r.emaDecayCalls = [0] ∧
    keysOf r.ema = keysOf r.model ∧
    (∀ k, sdLookup r.ema k = sdLookup r.model k) := by
  simp only [initModule] at hok
  cases hcond : shouldLoadPretrained args.pretrained args.resume_from_checkpoint with
  | false =>
    rw [hcond] at hok
    simp only [Bool.false_eq_true, if_false] at hok
    obtain rfl : ({ model := initParams
                    ema := update_ema initParams initParams 0
                    emaDecayCalls := [0] } : InitResult) = r := by
      cases hok
      rfl
    refine ⟨rfl, keysOf_update_ema initParams initParams 0, ?_⟩
    intro k
    exact update_ema_zero_lookup initParams initParams k rfl
      (by
        intro v t hv ht
        rw [hv] at ht
        cases ht
        exact ⟨rfl, rfl⟩)
  | true =>
    rw [hcond] at hok
    simp only [if_true] at hok
    cases hld : loadPretrainedParameters ckpt initParams with
    | error e =>
      rw [hld] at hok
      cases hok
    | ok pair =>
      obtain ⟨model1, ign⟩ := pair
      rw [hld] at hok
      obtain rfl : ({ model := model1
                      ema := update_ema initParams model1 0
                      emaDecayCalls := [0] } : InitResult) = r := by
        cases hok
        rfl
      obtain ⟨hdD, _, hshA⟩ := loadPretrained_ok_elim hld
      subst hdD
      have hsubP : ∀ kv ∈ (resolveCheckpoint ckpt).filter fun kv => hasKey initParams kv.1,
          hasKey initParams kv.1 = true := by
        intro kv hkv
        exact (List.mem_filter.mp hkv).2
      have lookupP : ∀ k,
          sdLookup ((resolveCheckpoint ckpt).filter fun kv => hasKey initParams kv.1) k
            = if hasKey initParams k then sdLookup (resolveCheckpoint ckpt) k else none :=
        fun k => sdLookup_filter_key (fun k => hasKey initParams k) (resolveCheckpoint ckpt) k
      have lookupD : ∀ k,
          sdLookup (dictUpdate initParams
              ((resolveCheckpoint ckpt).filter fun kv => hasKey initParams kv.1)) k
            = match sdLookup initParams k with
              | some v =>
                  some (match sdLookup
                          ((resolveCheckpoint ckpt).filter fun kv => hasKey initParams kv.1) k with
                        | some u => u
                        | none => v)
              | none => none :=
        fun k => sdLookup_dictUpdate_of_sub initParams _ hsubP k
      refine ⟨rfl, ?_, ?_⟩
      · show keysOf (update_ema initParams _ 0) = keysOf (dictUpdate initParams _)
        rw [keysOf_update_ema, keysOf_dictUpdate_of_sub initParams _ hsubP]
      · intro k
        apply update_ema_zero_lookup
        · cases he : sdLookup initParams k with
          | none => rw [lookupD k, he]
          | some v =>
            rw [lookupD k, he]
            rfl
        · intro v t hv ht
          rw [lookupD k, hv] at ht
          have hmem : (k, v) ∈ initParams := sdLookup_mem hv
          have hsh := List.all_eq_true.mp hshA _ hmem
          rw [lookupD k, hv] at hsh
          cases hp : sdLookup
              ((resolveCheckpoint ckpt).filter fun kv => hasKey initParams kv.1) k with
          | none =>
            rw [hp] at ht
            obtain rfl : v = t := by
              cases ht
              rfl
            exact ⟨rfl, rfl⟩
          | some u =>
            rw [hp] at ht
            obtain rfl : u = t := by
              cases ht
              rfl
            rw [hp] at hsh
            have hshape : v.shape = u.shape := of_decide_eq_true hsh
            have hresu : sdLookup (resolveCheckpoint ckpt) k = some u := by
              rw [lookupP k] at hp
              have hkm : hasKey initParams k = true := by
                show (sdLookup initParams k).isSome = true
                rw [hv]
                rfl
              rw [hkm] at hp
              simpa using hp
            have hlenv : v.data.length = v.shape.prod := stateDict_wfB_lookup hwf1 hv
            have hlenu : u.data.length = u.shape.prod := stateDict_wfB_lookup hwf2 hresu
            exact ⟨hshape, by rw [hlenv, hlenu, hshape]⟩

/-- C5 witness: constructing the module over concrete two-parameter
weights with a pretrained checkpoint makes exactly one decay-0
`update_ema` call and leaves the shadow equal to the live parameters at
every key. -/
theorem C5_ema_bootstrap_witness :
    initModule c5Args c5Params c5Ckpt = Except.ok c5Result ∧
    c5Result.emaDecayCalls = [0] ∧
    sdLookup c5Result.ema "a" = sdLookup c5Result.model "a" ∧
    sdLookup c5Result.ema "b" = sdLookup c5Result.model "b" ∧
    sdLookup c5Result.model "a" = some { shape := [2], data := [5, 6] } := by
  have hok : initModule c5Args c5Params c5Ckpt = Except.ok c5Result := rfl
  obtain ⟨h1, h2, h3⟩ :=
    C5_ema_bootstrap c5Args c5Params c5Ckpt c5Result hok (by decide) (by decide)
  exact ⟨hok, h1, h3 "a", h3 "b", rfl⟩

end Latte
